import Mathlib

/-!
# Review dashboard (`src/assets/dashboard.js`)

A shallow embedding of the dataset-review script: the values `res.json()` can
produce, the conversions the script applies to them (`!x`, `x || y`, `x ? a : b`,
template substitution, `a.b`, `a?.b`), the markup built for each record, the
continuation of `loadDataset` that rewrites the records container, and
`handleDecision`.

Boundaries of the embedding.
* A rendered block is identified with the markup text assigned to its
  `innerHTML`, together with the record and index captured by its two click
  handlers. The values of a record are pasted into that markup unescaped, so
  the statements about a block speak of its markup, not of what a browser
  displays for it.
* The HTML parser belongs to the platform. The one thing the script asks of it,
  whether `div.querySelector` finds the two buttons in the markup just
  assigned, is a parameter (`Browser`).
* `fetch` and `res.json()` belong to the platform; their outcome is an input
  (`FetchResult`).
-/

namespace Dashboard

/-- Errors a promise chain of the script can reject with. `outOfModel` marks an
operation applied to a value for which this development fixes no meaning. -/
inductive JSError where
  | typeError
  | syntaxError
  | outOfModel
  deriving DecidableEq, Repr

/-- Values of the script: what `JSON.parse` yields, plus `undefined`, which
property reads produce. A number is represented by the text `Number::toString`
gives for it; besides its truthiness that text is all the script observes of a
number. An object is the list of its own properties. -/
inductive JSVal where
  | undefined
  | null
  | bool (b : Bool)
  | num (text : String)
  | str (s : String)
  | arr (elems : List JSVal)
  | obj (fields : List (String × JSVal))
  deriving Repr

/-- Own-property lookup in a property list (first entry for the key). -/
def lookupField (k : String) : List (String × JSVal) → Option JSVal
  | [] => none
  | (k', v) :: rest => if k' = k then some v else lookupField k rest

/-- Whether the value is an object with an own property `k`. Primitives, `null`
and arrays have no own property of the names the script uses. -/
def hasField (v : JSVal) (k : String) : Bool :=
  match v with
  | .obj fs => (lookupField k fs).isSome
  | _ => false

/-- ToBoolean: `false`, `null`, `undefined`, `+0`, `-0` (both print as `0`),
`NaN` and the empty string are falsy; every array and object is truthy. -/
def truthy : JSVal → Bool
  | .undefined => false
  | .null => false
  | .bool b => b
  | .num t => !(t = "0" || t = "NaN")
  | .str s => !(s = "")
  | .arr _ => true
  | .obj _ => true

/-- Property read `v.k`. Reading from `null` or `undefined` throws; an absent
property reads as `undefined`. For a primitive or an array the result is
`undefined`: none of the names the script reads (`records`, `verified`, `id`,
`suggested_species`, `location`, `lat`, `lon`, `signal`, `freq_peak`,
`amplitude`, `image`, `audio`) is defined on a built-in prototype. -/
def getProp (v : JSVal) (k : String) : Except JSError JSVal :=
  match v with
  | .undefined => .error .typeError
  | .null => .error .typeError
  | .obj fs => .ok ((lookupField k fs).getD .undefined)
  | _ => .ok .undefined

/-- Optional chaining `v?.k`: `undefined` when `v` is `null` or `undefined`,
otherwise the property read. -/
def getOpt (v : JSVal) (k : String) : Except JSError JSVal :=
  match v with
  | .undefined => .ok .undefined
  | .null => .ok .undefined
  | _ => getProp v k

mutual
/-- ToString, as applied by a template substitution. An array prints its
elements joined by commas. A parsed object prints as `[object Object]`, unless
it has an own property `toString`: that property is never callable, the
inherited `valueOf` returns the object itself, and the conversion throws. -/
def toStr : JSVal → Except JSError String
  | .undefined => .ok "undefined"
  | .null => .ok "null"
  | .bool true => .ok "true"
  | .bool false => .ok "false"
  | .num t => .ok t
  | .str s => .ok s
  | .arr xs => joinElems xs
  | .obj fs => if (lookupField "toString" fs).isSome then .error .typeError
               else .ok "[object Object]"
/-- The array `join` with separator `,`; `null` and `undefined` elements print
as the empty string. -/
def joinElems : List JSVal → Except JSError String
  | [] => .ok ""
  | x :: rest =>
      let first : Except JSError String :=
        match x with
        | .undefined => .ok ""
        | .null => .ok ""
        | v => toStr v
      match rest with
      | [] => first
      | _ :: _ => do
          let a ← first
          let b ← joinElems rest
          pure (a ++ "," ++ b)
end

/-- The values substituted into the template literal of `loadDataset`, in
source order, each already converted to text. -/
structure Slots where
  id : String
  species : String
  lat : String
  lon : String
  freq : String
  amp : String
  image : String
  audio : String
  deriving DecidableEq, Repr

/-- The nested template of the image line:
`record.image ? <img src="${record.image}" alt="plant image"/> : ""`. -/
def imageMarkup (record : JSVal) : Except JSError String := do
  let image ← getProp record "image"
  if truthy image then do
    let src ← toStr (← getProp record "image")
    pure ("<img src=\"" ++ src ++ "\" alt=\"plant image\"/>")
  else pure ""

/-- The nested template of the audio line:
`record.audio ? <audio controls src="${record.audio}"></audio> : ""`. -/
def audioMarkup (record : JSVal) : Except JSError String := do
  let audio ← getProp record "audio"
  if truthy audio then do
    let src ← toStr (← getProp record "audio")
    pure ("<audio controls src=\"" ++ src ++ "\"></audio>")
  else pure ""

/-- The substitutions of the template, evaluated left to right:
`record.id`, `record.suggested_species || "Unknown"`, `record.location?.lat`,
`record.location?.lon`, `record.signal?.freq_peak`, `record.signal?.amplitude`,
the image line and the audio line. -/
def slots (record : JSVal) : Except JSError Slots := do
  let id ← toStr (← getProp record "id")
  let suggested ← getProp record "suggested_species"
  let species ← toStr (if truthy suggested then suggested else .str "Unknown")
  let lat ← toStr (← getOpt (← getProp record "location") "lat")
  let lon ← toStr (← getOpt (← getProp record "location") "lon")
  let freq ← toStr (← getOpt (← getProp record "signal") "freq_peak")
  let amp ← toStr (← getOpt (← getProp record "signal") "amplitude")
  let image ← imageMarkup record
  let audio ← audioMarkup record
  pure ⟨id, species, lat, lon, freq, amp, image, audio⟩

/-- The literal text of the template around its substitutions (lines 20-30 of
the source, with its line breaks and indentation). -/
def fill (s : Slots) : String :=
  "\n            <strong>ID:</strong> " ++ s.id ++ "<br/>" ++
  "\n            <strong>Suggested Species:</strong> " ++ s.species ++ "<br/>" ++
  "\n            <strong>Location:</strong> " ++ s.lat ++ ", " ++ s.lon ++ "<br/>" ++
  "\n            <strong>Signal:</strong> Freq: " ++ s.freq ++ " Hz, Amp: " ++ s.amp ++ "<br/>" ++
  "\n            " ++ s.image ++
  "\n            " ++ s.audio ++
  "\n            <br/>" ++
  "\n            <button class=\"approve\">Approve</button>" ++
  "\n            <button class=\"reject\">Reject</button>" ++
  "\n          "

/-- The markup `content` built for one record. -/
def content (record : JSVal) : Except JSError String :=
  (slots record).map fill

/-- One child of the records container: the `div` created by the `forEach`
callback, with the record and index its click handlers close over. -/
structure Block where
  className : String
  innerHTML : String
  record : JSVal
  index : Nat
  deriving Repr

/-- The callback of `filter`, `r => !r.verified`. -/
def unverified (r : JSVal) : Except JSError Bool :=
  (getProp r "verified").map (fun v => !truthy v)

/-- `Array.prototype.filter` with the callback `unverified`: the callback is
applied to every element in order, and the first exception aborts the call. -/
def filterUnverified : List JSVal → Except JSError (List JSVal)
  | [] => .ok []
  | r :: rest => do
      let keep ← unverified r
      let tail ← filterUnverified rest
      pure (if keep then r :: tail else tail)

/-- What the script asks of the HTML parser. `querySelector markup selector`
tells whether `div.querySelector(selector)` is an element (`true`) or `null`
(`false`) once `div.innerHTML = markup` has run on a fresh `div`. Since the
values of a record are pasted into the markup unescaped, markup inside a value
(an opening `<textarea>`, an unclosed comment) can hide the buttons of the
template. -/
structure Browser where
  querySelector : String → String → Bool

/-- The body of the `forEach` callback before `appendChild` (lines 17-35): the
markup is built and assigned to `innerHTML`, then a handler is set on
`div.querySelector(".approve")` and on `div.querySelector(".reject")`; setting
`onclick` on `null` throws a TypeError. -/
def buildBlock (browser : Browser) (record : JSVal) (i : Nat) : Except JSError Block :=
  match content record with
  | .error e => .error e
  | .ok html =>
      if browser.querySelector html ".approve" = false then .error .typeError
      else if browser.querySelector html ".reject" = false then .error .typeError
      else .ok ⟨"record", html, record, i⟩

/-- The `forEach` over the filtered records: each record's block is built and
appended to the container; an exception leaves the blocks appended so far and
ends the loop. `i` is the index of the next element, `shown` the container. -/
def renderEach (browser : Browser) : List JSVal → Nat → List Block → List Block × Option JSError
  | [], _, shown => (shown, none)
  | record :: rest, i, shown =>
      match buildBlock browser record i with
      | .error e => (shown, some e)
      | .ok block => renderEach browser rest (i + 1) (shown ++ [block])

/-- The continuation `data => ...` of `loadDataset`, as a step on the records
container: the container is emptied first, then `data.records` is filtered and
rendered. The result is the container afterwards and the exception, if any,
the promise rejects with. Calling `filter` on anything but an array throws. -/
def loadContinuation (browser : Browser) (data : JSVal) (_shown : List Block) :
    List Block × Option JSError :=
  let shown : List Block := []
  match getProp data "records" with
  | .error e => (shown, some e)
  | .ok (.arr records) =>
      match filterUnverified records with
      | .error e => (shown, some e)
      | .ok pending => renderEach browser pending 0 shown
  | .ok _ => (shown, some .typeError)

/-- How a `fetch(file).then(res => res.json())` chain settles. -/
inductive FetchResult where
  | networkFailure
  | invalidJSON
  | parsed (data : JSVal)
  deriving Repr

/-- The promise chain of `loadDataset` once the fetch settles, as a step on the
records container. A rejected fetch or `res.json()` skips the continuation. -/
def loadSettles (browser : Browser) (result : FetchResult) (shown : List Block) :
    List Block × Option JSError :=
  match result with
  | .networkFailure => (shown, some .typeError)
  | .invalidJSON => (shown, some .syntaxError)
  | .parsed data => loadContinuation browser data shown

/-- Assignment `o.k = v` on a property list: an existing own property is
overwritten in place, a new one is added at the end. -/
def assignField (k : String) (v : JSVal) : List (String × JSVal) → List (String × JSVal)
  | [] => [(k, v)]
  | (k', v') :: rest =>
      if k' = k then (k, v) :: rest else (k', v') :: assignField k v rest

/-- Property write `target.k = v`. Writing to `null` or `undefined` throws. The
records the script decides on are parsed objects; for an array or a primitive
target the effect depends on the script mode and on properties this
development does not represent, so the write is reported as `outOfModel`. -/
def setProp (target : JSVal) (k : String) (v : JSVal) : Except JSError JSVal :=
  match target with
  | .obj fs => .ok (.obj (assignField k v fs))
  | .undefined => .error .typeError
  | .null => .error .typeError
  | _ => .error .outOfModel

/-- What a run of the script does to the outside, in the order it happens: a
blocking `alert`, a write to a property of the record in hand, a `fetch`. -/
inductive Effect where
  | alert (message : String)
  | assign (key : String) (value : JSVal)
  | fetch (file : String)
  deriving Repr

/-- The synchronous part of `loadDataset(file)`: the request is issued; the
continuation runs when it settles (`loadSettles`). -/
def loadDataset (file : String) : List Effect :=
  [.fetch file]

/-- The result of one call of `handleDecision`: the effects produced up to the
point the call returned or threw, the record as the call left it, and the
exception thrown, if any. -/
structure Decision where
  effects : List Effect
  record : JSVal
  error : Option JSError
  deriving Repr

/-- The text passed to `alert`: `Record ${record.id} ${approved ? "approved" : "rejected"}.` -/
def decisionMessage (record : JSVal) (approved : Bool) : Except JSError String := do
  let id ← toStr (← getProp record "id")
  pure ("Record " ++ id ++ " " ++ (if approved then "approved" else "rejected") ++ ".")

/-- The function `handleDecision(record, approved, index)`, statement by
statement; `selected` is `datasetSelect.value` at the time of the call. -/
def handleDecision (selected : String) (record : JSVal) (approved : Bool) (_index : Nat) :
    Decision :=
  match decisionMessage record approved with
  | .error e => ⟨[], record, some e⟩
  | .ok message =>
    let notified : List Effect := [.alert message]
    match setProp record "verified" (.bool approved) with
    | .error e => ⟨notified, record, some e⟩
    | .ok record1 =>
      let done1 := notified ++ [.assign "verified" (.bool approved)]
      match (if approved then getProp record1 "suggested_species"
             else .ok (.str "rejected")) with
      | .error e => ⟨done1, record1, some e⟩
      | .ok species =>
        match setProp record1 "verified_species" species with
        | .error e => ⟨done1, record1, some e⟩
        | .ok record2 =>
          ⟨done1 ++ [.assign "verified_species" species] ++ loadDataset selected,
            record2, none⟩

/-- The page while the script runs: the value of the dataset selector, the
children of the records container, and the effects produced so far. -/
structure World where
  selected : String
  shown : List Block
  effects : List Effect
  deriving Repr

/-- A click on the Approve (`approved = true`) or Reject button of the block at
position `pos` of the container: the handler calls `handleDecision` with the
record and index the block closes over. An exception ends the handler. -/
def World.click (w : World) (pos : Nat) (approved : Bool) : World :=
  match w.shown.get? pos with
  | none => w
  | some b =>
      let d := handleDecision w.selected b.record approved b.index
      { w with
        shown := w.shown.set pos { b with record := d.record }
        effects := w.effects ++ d.effects }

/-- One issued fetch settles with `result`. -/
def World.settle (w : World) (browser : Browser) (result : FetchResult) : World :=
  { w with shown := (loadSettles browser result w.shown).1 }

/-- The container after a sequence of successfully parsed payloads has been
delivered to the continuation, in order of completion. -/
def completeAll (browser : Browser) (payloads : List JSVal) (shown : List Block) : List Block :=
  payloads.foldl (fun c data => (loadContinuation browser data c).1) shown

/-! ## Vocabulary of the statements -/

/-- The value of `v.k` where the read does not throw, `undefined` where it does. -/
def field (v : JSVal) (k : String) : JSVal :=
  match getProp v k with
  | .ok x => x
  | .error _ => .undefined

/-- The markup of a record where it can be built, the empty text where not. -/
def markupOf (record : JSVal) : String :=
  match content record with
  | .ok html => html
  | .error _ => ""

/-- The blocks expected for a list of records, numbered from `i`. -/
def blocksFrom : Nat → List JSVal → List Block
  | _, [] => []
  | i, r :: rest => ⟨"record", markupOf r, r, i⟩ :: blocksFrom (i + 1) rest

/-- Both buttons of the template are found in the markup. -/
def Browser.findsButtons (browser : Browser) (markup : String) : Prop :=
  browser.querySelector markup ".approve" = true ∧ browser.querySelector markup ".reject" = true

/-- The text left after the literal `lit`, when `text` starts with it. -/
def dropLit (lit : List Char) (text : List Char) : Option (List Char) :=
  if lit.isPrefixOf text then some (text.drop lit.length) else none

/-- The text from the first `<` on. -/
def skipText : List Char → List Char
  | [] => []
  | c :: rest => if c = Char.ofNat 60 then c :: rest else skipText rest

/-- The text from the closing double quote of an attribute value on; no result
when the value holds `<` or `>` or is not closed. -/
def skipAttr : List Char → Option (List Char)
  | [] => none
  | c :: rest =>
      if c = Char.ofNat 34 then some (c :: rest)
      else if c = Char.ofNat 60 || c = Char.ofNat 62 then none
      else skipAttr rest

/-- An element the template may write at this place: when `text` starts with
`opening`, an attribute value and `closing` must follow; otherwise nothing is
consumed. -/
def skipElement (opening closing : List Char) (text : List Char) : Option (List Char) :=
  match dropLit opening text with
  | some inside => (skipAttr inside).bind (dropLit closing)
  | none => some text

/-- Whether `markup` is the template with plain texts in its places: no pasted
text holds a `<`, and the source of the image and of the audio element holds no
double quote, `<` or `>`. In such markup the only tags are those of the
template. -/
def plainTemplate (markup : List Char) : Bool :=
  match (do
    let r ← dropLit "\n            <strong>ID:</strong> ".data markup
    let r ← dropLit "<br/>\n            <strong>Suggested Species:</strong> ".data (skipText r)
    let r ← dropLit "<br/>\n            <strong>Location:</strong> ".data (skipText r)
    let r ← dropLit "<br/>\n            <strong>Signal:</strong> Freq: ".data (skipText r)
    let r ← dropLit "<br/>\n            ".data (skipText r)
    let r ← skipElement "<img src=\"".data "\" alt=\"plant image\"/>".data r
    let r ← dropLit "\n            ".data r
    let r ← skipElement "<audio controls src=\"".data "\"></audio>".data r
    dropLit ("\n            <br/>" ++
      "\n            <button class=\"approve\">Approve</button>" ++
      "\n            <button class=\"reject\">Reject</button>" ++
      "\n          ").data r) with
  | some [] => true
  | _ => false

/-- A browser for the examples. It reports the two buttons as found only in
markup it can check to hold no tags but the template's (`plainTemplate`), where
every HTML parser finds them; elsewhere it reports nothing as found. -/
def exampleBrowser : Browser where
  querySelector markup selector :=
    (selector = ".approve" || selector = ".reject") && plainTemplate markup.data

/-- A record whose id holds an opening tag that hides the buttons. -/
def textareaRecord : JSVal :=
  .obj [("id", .str "<textarea>"), ("suggested_species", .str "Fern")]

/-- The block of `record` can be built: its markup is built without an
exception and the browser finds both buttons in it. -/
def Buildable (browser : Browser) (record : JSVal) : Prop :=
  ∃ html, content record = .ok html ∧ browser.findsButtons html

/-- The conversion to text succeeds on `v`. -/
def Printable (v : JSVal) : Prop :=
  ∃ t, toStr v = .ok t

/-- The value of `v?.k`. -/
def optField (v : JSVal) (k : String) : JSVal :=
  match getOpt v k with
  | .ok x => x
  | .error _ => .undefined

/-- The image element built for a source text. -/
def imgTag (src : String) : String :=
  "<img src=\"" ++ src ++ "\" alt=\"plant image\"/>"

/-- The audio element built for a source text. -/
def audioTag (src : String) : String :=
  "<audio controls src=\"" ++ src ++ "\"></audio>"

/-- The first record of the end-to-end example of the specification. -/
def fernFields : List (String × JSVal) :=
  [("id", .num "1"), ("verified", .bool false), ("suggested_species", .str "Fern")]

/-- The first record of that example as a value. -/
def fernRecord : JSVal :=
  .obj fernFields

/-- The second record of that example, already verified. -/
def verifiedRecord : JSVal :=
  .obj [("id", .num "2"), ("verified", .bool true)]

/-- The dataset of that example. -/
def exampleDataset : JSVal :=
  .obj [("records", .arr [fernRecord, verifiedRecord])]

/-- A record with nothing but an identifier. -/
def bareRecord : JSVal :=
  .obj [("id", .str "r7")]

/-- A record whose optional texts are present and empty. -/
def blankRecord : JSVal :=
  .obj [("id", .num "3"), ("suggested_species", .str ""), ("image", .str ""),
        ("audio", .str "")]

/-- A record with every optional field filled in. -/
def oakFields : List (String × JSVal) :=
  [("id", .num "4"), ("suggested_species", .str "Oakus robustus"),
   ("location", .obj [("lat", .num "51.5"), ("lon", .num "-0.12")]),
   ("signal", .obj [("freq_peak", .num "440"), ("amplitude", .num "0.8")]),
   ("image", .str "img/oak.png"), ("audio", .str "audio/oak.wav")]

/-- That record as a value. -/
def oakRecord : JSVal :=
  .obj oakFields


/-! ## Property lists -/

theorem lookupField_assignField_same (k : String) (v : JSVal) (fs : List (String × JSVal)) :
    lookupField k (assignField k v fs) = some v := by
  induction fs with
  | nil => simp [assignField, lookupField]
  | cons p rest ih =>
    obtain ⟨k', v'⟩ := p
    by_cases h : k' = k
    · simp [assignField, lookupField, h]
    · simp [assignField, lookupField, h, ih]

theorem lookupField_assignField_other (k j : String) (v : JSVal) (fs : List (String × JSVal))
    (hne : j ≠ k) : lookupField j (assignField k v fs) = lookupField j fs := by
  induction fs with
  | nil => simp [assignField, lookupField, hne.symm]
  | cons p rest ih =>
    obtain ⟨k', v'⟩ := p
    by_cases h : k' = k
    · subst h
      simp [assignField, lookupField, hne.symm]
    · by_cases hj : k' = j
      · subst hj
        simp [assignField, lookupField, h]
      · simp [assignField, lookupField, h, hj, ih]

theorem field_obj (fs : List (String × JSVal)) (k : String) :
    field (.obj fs) k = (lookupField k fs).getD .undefined := rfl

theorem getProp_ok_of_ne {v : JSVal} (k : String) (h1 : v ≠ .null) (h2 : v ≠ .undefined) :
    getProp v k = .ok (field v k) := by
  cases v <;> simp_all [getProp, field]

/-! ## Building one block -/

theorem content_ok_iff {record : JSVal} {html : String} :
    content record = .ok html ↔ ∃ s, slots record = .ok s ∧ html = fill s := by
  unfold content
  cases h : slots record with
  | error e => simp [Except.map]
  | ok s =>
    simp only [Except.map, Except.ok.injEq]
    constructor
    · intro hh; exact ⟨s, rfl, hh.symm⟩
    · rintro ⟨s', hs, rfl⟩; rw [hs]

theorem content_error_of_null : content .null = .error .typeError := rfl

theorem content_error_of_undefined : content .undefined = .error .typeError := rfl

theorem ne_null_of_content {record : JSVal} {html : String} (h : content record = .ok html) :
    record ≠ .null ∧ record ≠ .undefined := by
  constructor
  · rintro rfl; rw [content_error_of_null] at h; cases h
  · rintro rfl; rw [content_error_of_undefined] at h; cases h

/-! ## The filter and the loop -/

theorem unverified_eq {r : JSVal} (h1 : r ≠ .null) (h2 : r ≠ .undefined) :
    unverified r = .ok (!truthy (field r "verified")) := by
  simp [unverified, getProp_ok_of_ne "verified" h1 h2, Except.map]

theorem filterUnverified_eq (records : List JSVal)
    (h : ∀ r ∈ records, r ≠ .null ∧ r ≠ .undefined) :
    filterUnverified records
      = .ok (records.filter (fun r => !truthy (field r "verified"))) := by
  induction records with
  | nil => rfl
  | cons r rest ih =>
    have hr := h r (List.mem_cons_self _ _)
    have ih1 := ih (fun x hx => h x (List.mem_cons_of_mem _ hx))
    simp only [filterUnverified, unverified_eq hr.1 hr.2, ih1, bind, Except.bind, pure,
      Except.pure, List.filter_cons]

theorem buildBlock_eq (browser : Browser) (record : JSVal) (i : Nat)
    (h : Buildable browser record) :
    buildBlock browser record i = .ok ⟨"record", markupOf record, record, i⟩ := by
  obtain ⟨html, hhtml, ha, hr⟩ := h
  simp [buildBlock, markupOf, hhtml, ha, hr]

theorem buildBlock_ok {browser : Browser} {record : JSVal} {i : Nat} {b : Block}
    (h : buildBlock browser record i = .ok b) :
    content record = .ok b.innerHTML ∧ browser.findsButtons b.innerHTML ∧
      b = ⟨"record", b.innerHTML, record, i⟩ := by
  unfold buildBlock at h
  cases hc : content record with
  | error e => rw [hc] at h; cases h
  | ok html =>
    rw [hc] at h
    by_cases ha : browser.querySelector html ".approve" = false
    · simp [ha] at h
    · by_cases hr : browser.querySelector html ".reject" = false
      · simp [ha, hr] at h
      · simp only [ha, hr, if_false] at h
        cases h
        exact ⟨rfl, ⟨by simpa using ha, by simpa using hr⟩, rfl⟩

theorem buildBlock_without_button (browser : Browser) (record : JSVal) (i : Nat)
    (html : String) (hc : content record = .ok html)
    (hq : browser.querySelector html ".approve" = false ∨
      browser.querySelector html ".reject" = false) :
    buildBlock browser record i = .error .typeError := by
  unfold buildBlock
  rw [hc]
  rcases hq with hq | hq
  · simp [hq]
  · by_cases ha : browser.querySelector html ".approve" = false <;> simp [ha, hq]

theorem renderEach_without_button (browser : Browser) (record : JSVal) (rest : List JSVal)
    (i : Nat) (shown : List Block) (html : String) (hc : content record = .ok html)
    (hq : browser.querySelector html ".approve" = false ∨
      browser.querySelector html ".reject" = false) :
    renderEach browser (record :: rest) i shown = (shown, some .typeError) := by
  simp [renderEach, buildBlock_without_button browser record i html hc hq]

theorem renderEach_eq (browser : Browser) (records : List JSVal) (i : Nat) (shown : List Block)
    (h : ∀ r ∈ records, Buildable browser r) :
    renderEach browser records i shown = (shown ++ blocksFrom i records, none) := by
  induction records generalizing i shown with
  | nil => simp [renderEach, blocksFrom]
  | cons r rest ih =>
    have hr := buildBlock_eq browser r i (h r (List.mem_cons_self _ _))
    have ih1 := ih (i + 1) (shown ++ [⟨"record", markupOf r, r, i⟩])
      (fun x hx => h x (List.mem_cons_of_mem _ hx))
    simp only [renderEach, hr, ih1, blocksFrom, List.append_assoc, List.singleton_append]

theorem map_record_blocksFrom (i : Nat) (records : List JSVal) :
    (blocksFrom i records).map Block.record = records := by
  induction records generalizing i with
  | nil => rfl
  | cons r rest ih => simp [blocksFrom, ih]

theorem loadContinuation_shown_irrelevant (browser : Browser) (data : JSVal)
    (shown : List Block) :
    loadContinuation browser data shown = loadContinuation browser data [] := rfl

theorem loadContinuation_eq (browser : Browser) (data : JSVal) (records : List JSVal)
    (shown : List Block)
    (hrec : getProp data "records" = .ok (.arr records))
    (hbuild : ∀ r ∈ records, truthy (field r "verified") = false → Buildable browser r) :
    loadContinuation browser data shown
      = (blocksFrom 0 (records.filter (fun r => !truthy (field r "verified"))), none) := by
  have hne : ∀ r ∈ records, r ≠ .null ∧ r ≠ .undefined := by
    intro r hr
    have hb := hbuild r hr
    constructor
    · rintro rfl
      obtain ⟨html, hh, -⟩ := hb rfl
      rw [content_error_of_null] at hh; cases hh
    · rintro rfl
      obtain ⟨html, hh, -⟩ := hb rfl
      rw [content_error_of_undefined] at hh; cases hh
  have hall : ∀ r ∈ records.filter (fun r => !truthy (field r "verified")),
      Buildable browser r := by
    intro r hr
    rw [List.mem_filter] at hr
    exact hbuild r hr.1 (by simpa using hr.2)
  simp only [loadContinuation, hrec, filterUnverified_eq records hne,
    renderEach_eq browser _ 0 [] hall, List.nil_append]

theorem completeAll_snoc (browser : Browser) (earlier : List JSVal) (data : JSVal)
    (shown : List Block) :
    completeAll browser (earlier ++ [data]) shown = (loadContinuation browser data []).1 := by
  simp [completeAll, List.foldl_append, loadContinuation_shown_irrelevant browser data]

theorem renderEach_built (browser : Browser) (records : List JSVal) (i : Nat)
    (shown : List Block) :
    ∀ b ∈ (renderEach browser records i shown).1,
      b ∈ shown ∨ (content b.record = .ok b.innerHTML ∧ browser.findsButtons b.innerHTML) := by
  induction records generalizing i shown with
  | nil => intro b hb; exact Or.inl hb
  | cons r rest ih =>
    intro b hb
    unfold renderEach at hb
    cases hc : buildBlock browser r i with
    | error e =>
      rw [hc] at hb
      exact Or.inl hb
    | ok block =>
      rw [hc] at hb
      rcases ih (i + 1) _ b hb with h | h
      · rw [List.mem_append, List.mem_singleton] at h
        rcases h with h | h
        · exact Or.inl h
        · subst h
          obtain ⟨h1, h2, h3⟩ := buildBlock_ok hc
          refine Or.inr ⟨?_, h2⟩
          rw [h3]
          exact h1
      · exact Or.inr h

theorem loadContinuation_built (browser : Browser) (data : JSVal) (shown : List Block) :
    ∀ b ∈ (loadContinuation browser data shown).1,
      content b.record = .ok b.innerHTML ∧ browser.findsButtons b.innerHTML := by
  intro b hb
  unfold loadContinuation at hb
  cases hrec : getProp data "records" with
  | error e => rw [hrec] at hb; simp at hb
  | ok recs =>
    rw [hrec] at hb
    cases recs with
    | arr records =>
      simp only at hb
      cases hf : filterUnverified records with
      | error e => rw [hf] at hb; simp at hb
      | ok pending =>
        rw [hf] at hb
        rcases renderEach_built browser pending 0 [] b hb with h | h
        · simp at h
        · exact h
    | _ => simp at hb

theorem printable_id_of_content {record : JSVal} {html : String}
    (h : content record = .ok html) : Printable (field record "id") := by
  have hne := ne_null_of_content h
  obtain ⟨s, hs, -⟩ := content_ok_iff.mp h
  unfold slots at hs
  rw [getProp_ok_of_ne "id" hne.1 hne.2] at hs
  cases ht : toStr (field record "id") with
  | ok t => exact ⟨t, ht⟩
  | error e =>
    simp [ht, bind, Except.bind] at hs

/-! ## The decision -/

theorem handleDecision_obj (selected : String) (fs : List (String × JSVal)) (approved : Bool)
    (index : Nat) (t : String) (hid : toStr (field (.obj fs) "id") = .ok t) :
    handleDecision selected (.obj fs) approved index
      = ⟨[.alert ("Record " ++ t ++ " " ++ (if approved then "approved" else "rejected") ++ "."),
          .assign "verified" (.bool approved),
          .assign "verified_species"
            (if approved then field (.obj fs) "suggested_species" else .str "rejected"),
          .fetch selected],
         .obj (assignField "verified_species"
            (if approved then field (.obj fs) "suggested_species" else .str "rejected")
            (assignField "verified" (.bool approved) fs)),
         none⟩ := by
  have hmsg : decisionMessage (.obj fs) approved
      = .ok ("Record " ++ t ++ " " ++ (if approved then "approved" else "rejected") ++ ".") := by
    have hid1 : toStr ((lookupField "id" fs).getD .undefined) = .ok t := hid
    simp [decisionMessage, getProp, hid1, bind, Except.bind, pure, Except.pure]
  have hsp : lookupField "suggested_species" (assignField "verified" (.bool approved) fs)
      = lookupField "suggested_species" fs :=
    lookupField_assignField_other "verified" "suggested_species" _ fs (by decide)
  cases approved <;>
    simp [handleDecision, hmsg, setProp, getProp, loadDataset, hsp, field_obj]

/-! ## The substitutions of the template -/

theorem bind_ok_iff {α β : Type} (x : Except JSError α) (f : α → Except JSError β) (b : β) :
    (x >>= f) = .ok b ↔ ∃ a, x = .ok a ∧ f a = .ok b := by
  cases x <;> simp [bind, Except.bind]

theorem getOpt_eq (v : JSVal) (k : String) : getOpt v k = .ok (optField v k) := by
  cases v <;> simp [getOpt, optField, getProp]

theorem imageMarkup_eq {record : JSVal} (h1 : record ≠ .null) (h2 : record ≠ .undefined) :
    imageMarkup record
      = if truthy (field record "image") then (toStr (field record "image")).map imgTag
        else .ok "" := by
  unfold imageMarkup
  rw [getProp_ok_of_ne "image" h1 h2]
  by_cases ht : truthy (field record "image") = true
  · cases hs : toStr (field record "image") <;>
      simp [ht, hs, bind, Except.bind, pure, Except.pure, Except.map, imgTag]
  · simp [ht, bind, Except.bind, pure, Except.pure]

theorem audioMarkup_eq {record : JSVal} (h1 : record ≠ .null) (h2 : record ≠ .undefined) :
    audioMarkup record
      = if truthy (field record "audio") then (toStr (field record "audio")).map audioTag
        else .ok "" := by
  unfold audioMarkup
  rw [getProp_ok_of_ne "audio" h1 h2]
  by_cases ht : truthy (field record "audio") = true
  · cases hs : toStr (field record "audio") <;>
      simp [ht, hs, bind, Except.bind, pure, Except.pure, Except.map, audioTag]
  · simp [ht, bind, Except.bind, pure, Except.pure]

theorem slots_error_of_null : slots .null = .error .typeError := rfl

theorem slots_error_of_undefined : slots .undefined = .error .typeError := rfl

theorem slots_ok_iff (record : JSVal) (s : Slots) :
    slots record = .ok s ↔
      record ≠ .null ∧ record ≠ .undefined ∧
      toStr (field record "id") = .ok s.id ∧
      toStr (if truthy (field record "suggested_species") then field record "suggested_species"
             else .str "Unknown") = .ok s.species ∧
      toStr (optField (field record "location") "lat") = .ok s.lat ∧
      toStr (optField (field record "location") "lon") = .ok s.lon ∧
      toStr (optField (field record "signal") "freq_peak") = .ok s.freq ∧
      toStr (optField (field record "signal") "amplitude") = .ok s.amp ∧
      imageMarkup record = .ok s.image ∧
      audioMarkup record = .ok s.audio := by
  by_cases h1 : record = .null
  · subst h1; simp [slots_error_of_null]
  by_cases h2 : record = .undefined
  · subst h2; simp [slots_error_of_undefined]
  unfold slots
  simp only [getProp_ok_of_ne _ h1 h2, getOpt_eq, bind_ok_iff, pure, Except.pure,
    Except.ok.injEq, exists_eq_left, exists_eq_left']
  constructor
  · rintro ⟨a1, e1, a2, e2, a3, e3, a4, e4, a5, e5, a6, e6, a7, e7, a8, e8, rfl⟩
    exact ⟨h1, h2, e1, e2, e3, e4, e5, e6, e7, e8⟩
  · rintro ⟨-, -, e1, e2, e3, e4, e5, e6, e7, e8⟩
    exact ⟨_, e1, _, e2, _, e3, _, e4, _, e5, _, e6, _, e7, _, e8, rfl⟩

theorem printable_undefined : Printable .undefined := ⟨"undefined", rfl⟩

theorem field_of_hasField_false {record : JSVal} {k : String}
    (h : hasField record k = false) : field record k = .undefined := by
  cases record <;> simp_all [hasField, field, getProp]

theorem imgTag_ne_empty (t : String) : imgTag t ≠ "" := by
  intro h
  have := congrArg String.length h
  simp [imgTag] at this
  exact absurd this.2 (by decide)

theorem audioTag_ne_empty (t : String) : audioTag t ≠ "" := by
  intro h
  have := congrArg String.length h
  simp [audioTag] at this
  exact absurd this.2 (by decide)

set_option maxRecDepth 100000 in
theorem hidden_buttons_abort_render :
    loadSettles exampleBrowser (.parsed (.obj [("records", .arr [textareaRecord, bareRecord])]))
        (blocksFrom 0 [fernRecord])
      = ([], some .typeError) := rfl

/-! ## Rendering of a dataset -/

/-- C1: once the fetch resolves with a payload whose `records` is an array, and
the block of every record with falsy `verified` can be built (its markup is
built without an exception and the browser finds both buttons in it), the
container holds one block per record with falsy `verified` (false, absent,
null, 0, empty text) and none for the others, in the order of the payload, and
nothing is thrown. -/
theorem loadDataset_renders_unverified_in_order (browser : Browser) (data : JSVal)
    (records : List JSVal) (shown : List Block)
    (hrec : getProp data "records" = .ok (.arr records))
    (hbuild : ∀ r ∈ records, truthy (field r "verified") = false → Buildable browser r) :
    loadSettles browser (.parsed data) shown
        = (blocksFrom 0 (records.filter (fun r => !truthy (field r "verified"))), none) ∧
    (loadSettles browser (.parsed data) shown).1.map Block.record
        = records.filter (fun r => !truthy (field r "verified")) ∧
    truthy (.bool false) = false ∧ truthy .undefined = false ∧ truthy .null = false ∧
      truthy (.num "0") = false ∧ truthy (.str "") = false := by
  have h := loadContinuation_eq browser data records shown hrec hbuild
  refine ⟨h, ?_, rfl, rfl, rfl, rfl, rfl⟩
  show (loadContinuation browser data shown).1.map Block.record = _
  rw [h]
  exact map_record_blocksFrom 0 _

set_option maxRecDepth 100000 in
theorem loadDataset_renders_unverified_in_order_witness :
    getProp exampleDataset "records" = .ok (.arr [fernRecord, verifiedRecord]) ∧
    Buildable exampleBrowser fernRecord ∧
    (loadSettles exampleBrowser (.parsed exampleDataset) []).1.map Block.record
      = [fernRecord] := by
  have hfern : Buildable exampleBrowser fernRecord := ⟨_, rfl, rfl, rfl⟩
  have h := loadDataset_renders_unverified_in_order exampleBrowser exampleDataset
    [fernRecord, verifiedRecord] [] rfl (by
      intro r hr hv
      simp only [List.mem_cons, List.mem_singleton, List.not_mem_nil, or_false] at hr
      rcases hr with rfl | rfl
      · exact hfern
      · cases hv)
  exact ⟨rfl, hfern, h.2.1⟩

/-- C8: the container as state, each successfully parsed completion as a step.
After any non-empty sequence of completions, whatever the container held at the
start and whatever the earlier payloads were, the container is exactly the
rendering of the unverified records of the payload that completed last,
provided the blocks of those records can be built. The step does not read
which request a completion answers, so the order of the requests has no
influence. -/
theorem completeAll_last_resolved_wins (browser : Browser) (earlier : List JSVal)
    (data : JSVal) (records : List JSVal) (shown : List Block)
    (hrec : getProp data "records" = .ok (.arr records))
    (hbuild : ∀ r ∈ records, truthy (field r "verified") = false → Buildable browser r) :
    completeAll browser (earlier ++ [data]) shown
      = blocksFrom 0 (records.filter (fun r => !truthy (field r "verified"))) := by
  rw [completeAll_snoc, loadContinuation_eq browser data records [] hrec hbuild]

set_option maxRecDepth 100000 in
theorem completeAll_last_resolved_wins_witness :
    completeAll exampleBrowser
        ([.obj [("records", .arr [oakRecord, bareRecord])]] ++ [exampleDataset])
        [⟨"record", "stale", blankRecord, 5⟩]
      = blocksFrom 0 [fernRecord] :=
  completeAll_last_resolved_wins exampleBrowser [.obj [("records", .arr [oakRecord, bareRecord])]]
    exampleDataset [fernRecord, verifiedRecord] [⟨"record", "stale", blankRecord, 5⟩] rfl
    (by
      intro r hr hv
      simp only [List.mem_cons, List.mem_singleton, List.not_mem_nil, or_false] at hr
      rcases hr with rfl | rfl
      · exact ⟨_, rfl, rfl, rfl⟩
      · cases hv)

/-- C10: a parsed payload without a `records` field makes the continuation
throw a TypeError with the container emptied, whatever it held; a failed fetch
or a failed JSON parse leaves the container as it was. -/
theorem loadSettles_missing_records (browser : Browser) (data : JSVal) (shown : List Block)
    (hno : hasField data "records" = false) :
    loadSettles browser (.parsed data) shown = ([], some .typeError) ∧
    loadSettles browser .networkFailure shown = (shown, some .typeError) ∧
    loadSettles browser .invalidJSON shown = (shown, some .syntaxError) := by
  refine ⟨?_, rfl, rfl⟩
  cases data <;> try rfl
  rename_i fs
  have hl : lookupField "records" fs = none := by
    cases hx : lookupField "records" fs <;> simp_all [hasField]
  simp [loadSettles, loadContinuation, getProp, hl]

theorem loadSettles_missing_records_witness :
    hasField (.obj [("items", .arr [fernRecord])]) "records" = false ∧
    loadSettles exampleBrowser (.parsed (.obj [("items", .arr [fernRecord])]))
        (blocksFrom 0 [bareRecord])
      = ([], some .typeError) ∧
    loadSettles exampleBrowser .networkFailure (blocksFrom 0 [bareRecord])
      = (blocksFrom 0 [bareRecord], some .typeError) :=
  ⟨rfl,
   (loadSettles_missing_records exampleBrowser (.obj [("items", .arr [fernRecord])])
      (blocksFrom 0 [bareRecord]) rfl).1,
   (loadSettles_missing_records exampleBrowser (.obj [("items", .arr [fernRecord])])
      (blocksFrom 0 [bareRecord]) rfl).2.1⟩

/-! ## Decisions -/

/-- C2: `handleDecision(record, true)` on a record whose id converts to text
returns normally and leaves the record with `verified` equal to `true` and
`verified_species` equal to the value `suggested_species` had before the call,
which is `undefined` when the record had none. -/
theorem handleDecision_approve (selected : String) (fs : List (String × JSVal)) (index : Nat)
    (hid : Printable (field (.obj fs) "id")) :
    (handleDecision selected (.obj fs) true index).error = none ∧
    field (handleDecision selected (.obj fs) true index).record "verified" = .bool true ∧
    field (handleDecision selected (.obj fs) true index).record "verified_species"
      = field (.obj fs) "suggested_species" ∧
    (hasField (.obj fs) "suggested_species" = false →
      field (handleDecision selected (.obj fs) true index).record "verified_species"
        = .undefined) := by
  obtain ⟨t, ht⟩ := hid
  rw [handleDecision_obj selected fs true index t ht]
  have hv : field (.obj (assignField "verified_species" (field (.obj fs) "suggested_species")
      (assignField "verified" (.bool true) fs))) "verified" = .bool true := by
    rw [field_obj, lookupField_assignField_other "verified_species" "verified" _ _ (by decide),
      lookupField_assignField_same]
    rfl
  have hs : field (.obj (assignField "verified_species" (field (.obj fs) "suggested_species")
      (assignField "verified" (.bool true) fs))) "verified_species"
      = field (.obj fs) "suggested_species" := by
    rw [field_obj, lookupField_assignField_same]
    rfl
  refine ⟨rfl, ?_, ?_, ?_⟩
  · simpa using hv
  · simpa using hs
  · intro habs
    have := field_of_hasField_false habs
    simpa [this] using hs

theorem handleDecision_approve_witness :
    field (handleDecision "data.json" fernRecord true 0).record "verified" = .bool true ∧
    field (handleDecision "data.json" fernRecord true 0).record "verified_species"
      = .str "Fern" :=
  ⟨(handleDecision_approve "data.json" fernFields 0 ⟨"1", rfl⟩).2.1,
   (handleDecision_approve "data.json" fernFields 0 ⟨"1", rfl⟩).2.2.1⟩

/-- C3, against the claim as written: rejecting the example record leaves its
`verified` equal to `false`, not `true`. -/
theorem reject_leaves_unverified :
    field (handleDecision "data.json" fernRecord false 0).record "verified" = .bool false ∧
    ¬ (field (handleDecision "data.json" fernRecord false 0).record "verified" = .bool true) := by
  have h : field (handleDecision "data.json" fernRecord false 0).record "verified"
      = .bool false := rfl
  refine ⟨h, ?_⟩
  rw [h]
  simp

/-- C3, amended: `handleDecision(record, false)` on a record whose id converts
to text returns normally and leaves the record with `verified` equal to `false`
(the value of `approved`) and `verified_species` equal to the text `rejected`,
whatever its `suggested_species`. -/
theorem handleDecision_reject (selected : String) (fs : List (String × JSVal)) (index : Nat)
    (hid : Printable (field (.obj fs) "id")) :
    (handleDecision selected (.obj fs) false index).error = none ∧
    field (handleDecision selected (.obj fs) false index).record "verified" = .bool false ∧
    field (handleDecision selected (.obj fs) false index).record "verified_species"
      = .str "rejected" := by
  obtain ⟨t, ht⟩ := hid
  rw [handleDecision_obj selected fs false index t ht]
  have hv : field (.obj (assignField "verified_species" (.str "rejected")
      (assignField "verified" (.bool false) fs))) "verified" = .bool false := by
    rw [field_obj, lookupField_assignField_other "verified_species" "verified" _ _ (by decide),
      lookupField_assignField_same]
    rfl
  have hs : field (.obj (assignField "verified_species" (.str "rejected")
      (assignField "verified" (.bool false) fs))) "verified_species" = .str "rejected" := by
    rw [field_obj, lookupField_assignField_same]
    rfl
  refine ⟨rfl, ?_, ?_⟩
  · simpa using hv
  · simpa using hs

theorem handleDecision_reject_witness :
    field (handleDecision "data.json" oakRecord false 2).record "verified" = .bool false ∧
    field (handleDecision "data.json" oakRecord false 2).record "verified_species"
      = .str "rejected" :=
  (handleDecision_reject "data.json" oakFields 2 ⟨"4", rfl⟩).2

/-- C9: one call of `handleDecision` on a record whose id converts to the text
`t` produces, in this order and nothing else: one alert naming `t` and the
outcome, the write of `verified`, the write of `verified_species`, and one
fetch of the currently selected dataset; the call returns normally. -/
theorem handleDecision_effect_order (selected : String) (fs : List (String × JSVal))
    (approved : Bool) (index : Nat) (t : String)
    (hid : toStr (field (.obj fs) "id") = .ok t) :
    (handleDecision selected (.obj fs) approved index).effects
      = [.alert ("Record " ++ t ++ " " ++ (if approved then "approved" else "rejected") ++ "."),
         .assign "verified" (.bool approved),
         .assign "verified_species"
           (if approved then field (.obj fs) "suggested_species" else .str "rejected"),
         .fetch selected] ∧
    (handleDecision selected (.obj fs) approved index).error = none := by
  rw [handleDecision_obj selected fs approved index t hid]
  exact ⟨rfl, rfl⟩

theorem handleDecision_effect_order_witness :
    (handleDecision "birds.json" fernRecord false 0).effects
      = [.alert "Record 1 rejected.", .assign "verified" (.bool false),
         .assign "verified_species" (.str "rejected"), .fetch "birds.json"] :=
  (handleDecision_effect_order "birds.json" fernFields false 0 "1" rfl).1

/-- C4: let a payload be rendered, let the Approve or Reject button of any
rendered block whose record is an object be clicked, and let the reload this
requests resolve with the same payload. The click alerts, changes the record in
memory and ends by requesting the selected dataset; after the reload the
container equals the container before the click, so the block of the decided
record stands at its position again with the record as the payload gives it. -/
theorem decision_not_persisted (browser : Browser) (w : World) (data : JSVal) (pos : Nat)
    (approved : Bool) (b : Block) (fs : List (String × JSVal))
    (hb : (w.settle browser (.parsed data)).shown.get? pos = some b)
    (hobj : b.record = .obj fs) :
    (∃ before, ((w.settle browser (.parsed data)).click pos approved).effects
        = before ++ [.fetch w.selected]) ∧
    (∃ b1, ((w.settle browser (.parsed data)).click pos approved).shown.get? pos = some b1 ∧
        field b1.record "verified" = .bool approved) ∧
    (((w.settle browser (.parsed data)).click pos approved).settle browser
        (.parsed data)).shown
      = (w.settle browser (.parsed data)).shown ∧
    (((w.settle browser (.parsed data)).click pos approved).settle browser
        (.parsed data)).shown.get? pos
      = some b := by
  have hmem : b ∈ (loadContinuation browser data w.shown).1 := List.get?_mem hb
  have hcontent := (loadContinuation_built browser data w.shown b hmem).1
  obtain ⟨t, ht⟩ := printable_id_of_content hcontent
  rw [hobj] at ht
  have hd := handleDecision_obj w.selected fs approved b.index t ht
  have hreload : (((w.settle browser (.parsed data)).click pos approved).settle browser
      (.parsed data)).shown = (w.settle browser (.parsed data)).shown := rfl
  have hlen : pos < (w.settle browser (.parsed data)).shown.length := by
    rcases Nat.lt_or_ge pos (w.settle browser (.parsed data)).shown.length with h | h
    · exact h
    · rw [List.get?_eq_none.mpr h] at hb; cases hb
  refine ⟨?_, ?_, hreload, ?_⟩
  · refine ⟨w.effects ++ [.alert ("Record " ++ t ++ " " ++
        (if approved then "approved" else "rejected") ++ "."),
      .assign "verified" (.bool approved),
      .assign "verified_species"
        (if approved then field (.obj fs) "suggested_species" else .str "rejected")], ?_⟩
    simp only [World.click, hb, hobj]
    show w.effects ++ (handleDecision w.selected (.obj fs) approved b.index).effects = _
    rw [hd]
    simp
  · refine ⟨{ b with record := (handleDecision w.selected (.obj fs) approved b.index).record }, ?_, ?_⟩
    · simp only [World.click, hb, hobj]
      simp only [List.get?_eq_getElem?]
      rw [List.getElem?_set_self hlen]
      rfl
    · rw [hd]
      show field (.obj (assignField "verified_species" _ (assignField "verified" _ fs)))
        "verified" = .bool approved
      rw [field_obj, lookupField_assignField_other "verified_species" "verified" _ _ (by decide),
        lookupField_assignField_same]
      rfl
  · rw [hreload]; exact hb

set_option maxRecDepth 100000 in
theorem decision_not_persisted_witness :
    (((World.mk "data.json" [] []).settle exampleBrowser (.parsed exampleDataset)).click
        0 true).effects
      = [.alert "Record 1 approved.", .assign "verified" (.bool true),
         .assign "verified_species" (.str "Fern"), .fetch "data.json"] ∧
    ((((World.mk "data.json" [] []).settle exampleBrowser (.parsed exampleDataset)).click
        0 true).settle exampleBrowser (.parsed exampleDataset)).shown.map Block.record
      = [fernRecord] := by
  have h := decision_not_persisted exampleBrowser (World.mk "data.json" [] []) exampleDataset
    0 true ⟨"record", markupOf fernRecord, fernRecord, 0⟩ fernFields rfl rfl
  refine ⟨rfl, ?_⟩
  rw [h.2.2.1]
  rfl

/-! ## The text of one block -/

theorem settled_block_markup (browser : Browser) (data : JSVal) (shown : List Block) (b : Block)
    (hb : b ∈ (loadSettles browser (.parsed data) shown).1) :
    ∃ s, slots b.record = .ok s ∧ b.innerHTML = fill s ∧ browser.findsButtons b.innerHTML := by
  obtain ⟨hc, hq⟩ := loadContinuation_built browser data shown b hb
  obtain ⟨s, hs, hm⟩ := content_ok_iff.mp hc
  exact ⟨s, hs, hm, hq⟩

theorem species_slot (record : JSVal) (s : Slots) (h : slots record = .ok s) :
    (hasField record "suggested_species" = false → s.species = "Unknown") ∧
    (truthy (field record "suggested_species") = false → s.species = "Unknown") ∧
    (truthy (field record "suggested_species") = true →
      toStr (field record "suggested_species") = .ok s.species) ∧
    (∀ t, field record "suggested_species" = .str t → t ≠ "" → s.species = t) := by
  have hs := ((slots_ok_iff record s).mp h).2.2.2.1
  have hfalsy : truthy (field record "suggested_species") = false → s.species = "Unknown" := by
    intro hf
    rw [hf] at hs
    simp only [Bool.false_eq_true, if_false] at hs
    have : Except.ok "Unknown" = Except.ok s.species := hs
    exact (Except.ok.inj this).symm
  refine ⟨?_, hfalsy, ?_, ?_⟩
  · intro habs
    apply hfalsy
    rw [field_of_hasField_false habs]
    rfl
  · intro ht
    rw [ht] at hs
    simpa using hs
  · intro t ht hne
    rw [ht] at hs
    have htr : truthy (.str t) = true := by simp [truthy, hne]
    rw [htr] at hs
    simp only [if_true] at hs
    have : Except.ok t = Except.ok s.species := hs
    exact (Except.ok.inj this).symm

theorem media_slot (v : JSVal) (tag : String → String) (out : String)
    (hne : ∀ t, tag t ≠ "")
    (hm : (if truthy v then (toStr v).map tag else .ok "") = Except.ok out) :
    ((∃ t, toStr v = .ok t ∧ out = tag t) ↔ truthy v = true) ∧
    (out = "" ↔ truthy v = false) := by
  by_cases hv : truthy v = true
  · rw [if_pos hv] at hm
    cases hs : toStr v with
    | error e => rw [hs] at hm; cases hm
    | ok t =>
      rw [hs] at hm
      have ho : tag t = out := Except.ok.inj hm
      refine ⟨⟨fun _ => hv, fun _ => ⟨t, rfl, ho.symm⟩⟩, ?_⟩
      constructor
      · intro he
        rw [he] at ho
        exact absurd ho (hne t)
      · intro hf
        rw [hv] at hf
        cases hf
  · rw [if_neg hv] at hm
    have ho : "" = out := Except.ok.inj hm
    have hf : truthy v = false := by simpa using hv
    refine ⟨⟨?_, fun ht => absurd ht hv⟩, ⟨fun _ => hf, fun _ => ho.symm⟩⟩
    rintro ⟨t, -, ht⟩
    rw [← ho] at ht
    exact absurd ht.symm (hne t)

set_option maxRecDepth 100000 in
/-- C5, against the claim as written: a record that has a `suggested_species`
whose text is empty is shown with `Unknown`, not with that text. -/
theorem blank_species_shows_unknown :
    hasField blankRecord "suggested_species" = true ∧
    field blankRecord "suggested_species" = .str "" ∧
    (slots blankRecord).map Slots.species = .ok "Unknown" ∧
    ¬ ((slots blankRecord).map Slots.species = .ok "") ∧
    buildBlock exampleBrowser blankRecord 0 = .ok ⟨"record",
      "\n            <strong>ID:</strong> 3<br/>\n            <strong>Suggested Species:</strong> Unknown<br/>\n            <strong>Location:</strong> undefined, undefined<br/>\n            <strong>Signal:</strong> Freq: undefined Hz, Amp: undefined<br/>\n            \n            \n            <br/>\n            <button class=\"approve\">Approve</button>\n            <button class=\"reject\">Reject</button>\n          ",
      blankRecord, 0⟩ := by
  have h : (slots blankRecord).map Slots.species = .ok "Unknown" := rfl
  refine ⟨rfl, rfl, h, ?_, rfl⟩
  rw [h]
  simp

/-- C5, amended: in the markup of every rendered block, the text that follows
the label `Suggested Species:` is `Unknown` when the record's
`suggested_species` is absent or otherwise falsy (null, false, 0, the empty
text), and is the text of `suggested_species`, pasted as it is, when that is
truthy; a non-empty text such as `Oakus robustus` stands there unchanged. -/
theorem species_text (browser : Browser) (data : JSVal) (shown : List Block) (b : Block)
    (hb : b ∈ (loadSettles browser (.parsed data) shown).1) :
    ∃ s rest, slots b.record = .ok s ∧
      b.innerHTML = "\n            <strong>ID:</strong> " ++ s.id ++ "<br/>" ++
        "\n            <strong>Suggested Species:</strong> " ++ s.species ++ "<br/>" ++ rest ∧
      (hasField b.record "suggested_species" = false → s.species = "Unknown") ∧
      (truthy (field b.record "suggested_species") = false → s.species = "Unknown") ∧
      (truthy (field b.record "suggested_species") = true →
        toStr (field b.record "suggested_species") = .ok s.species) ∧
      (∀ t, field b.record "suggested_species" = .str t → t ≠ "" → s.species = t) := by
  obtain ⟨s, hs, hm, -⟩ := settled_block_markup browser data shown b hb
  refine ⟨s,
    "\n            <strong>Location:</strong> " ++ (s.lat ++ (", " ++ (s.lon ++ ("<br/>" ++
    ("\n            <strong>Signal:</strong> Freq: " ++ (s.freq ++ (" Hz, Amp: " ++ (s.amp ++
    ("<br/>" ++ ("\n            " ++ (s.image ++ ("\n            " ++ (s.audio ++
    ("\n            <br/>" ++ ("\n            <button class=\"approve\">Approve</button>" ++
    ("\n            <button class=\"reject\">Reject</button>" ++ "\n          ")))))))))))))))),
    hs, ?_, species_slot b.record s hs⟩
  rw [hm]
  simp only [fill, String.append_assoc]

set_option maxRecDepth 100000 in
theorem species_text_witness :
    ∃ s rest, slots oakRecord = .ok s ∧
      markupOf oakRecord = "\n            <strong>ID:</strong> " ++ s.id ++ "<br/>" ++
        "\n            <strong>Suggested Species:</strong> " ++ s.species ++ "<br/>" ++ rest ∧
      s.species = "Oakus robustus" := by
  obtain ⟨s, rest, hs, hm, -, -, -, h⟩ := species_text exampleBrowser
    (.obj [("records", .arr [oakRecord])]) [] ⟨"record", markupOf oakRecord, oakRecord, 0⟩
    (by
      rw [show (loadSettles exampleBrowser (.parsed (.obj [("records", .arr [oakRecord])])) []).1
        = [⟨"record", markupOf oakRecord, oakRecord, 0⟩] from rfl]
      exact List.mem_singleton_self _)
  exact ⟨s, rest, hs, hm, h "Oakus robustus" rfl (by decide)⟩

set_option maxRecDepth 100000 in
/-- C6, against the claim as written: a record whose `image` and `audio` fields
are present with an empty text gets neither an image nor an audio element. -/
theorem blank_media_gives_no_element :
    hasField blankRecord "image" = true ∧ hasField blankRecord "audio" = true ∧
    (slots blankRecord).map Slots.image = .ok "" ∧
    (slots blankRecord).map Slots.audio = .ok "" ∧
    (∀ t, ¬ ((slots blankRecord).map Slots.image = .ok (imgTag t))) ∧
    (∀ t, ¬ ((slots blankRecord).map Slots.audio = .ok (audioTag t))) ∧
    buildBlock exampleBrowser blankRecord 0 = .ok ⟨"record",
      "\n            <strong>ID:</strong> 3<br/>\n            <strong>Suggested Species:</strong> Unknown<br/>\n            <strong>Location:</strong> undefined, undefined<br/>\n            <strong>Signal:</strong> Freq: undefined Hz, Amp: undefined<br/>\n            \n            \n            <br/>\n            <button class=\"approve\">Approve</button>\n            <button class=\"reject\">Reject</button>\n          ",
      blankRecord, 0⟩ := by
  have hi : (slots blankRecord).map Slots.image = .ok "" := rfl
  have ha : (slots blankRecord).map Slots.audio = .ok "" := rfl
  refine ⟨rfl, rfl, hi, ha, ?_, ?_, rfl⟩
  · intro t h
    rw [hi] at h
    exact imgTag_ne_empty t (Except.ok.inj h).symm
  · intro t h
    rw [ha] at h
    exact audioTag_ne_empty t (Except.ok.inj h).symm

/-- C6, amended: the markup of every rendered block is the template with the
record's texts pasted into it as they are; on its image line stands the element
`<img src="T" alt="plant image"/>`, with `T` the text of `image`, if and only
if `image` is truthy, and nothing otherwise; on its audio line stands
`<audio controls src="T"></audio>`, with `T` the text of `audio`, if and only if
`audio` is truthy, and nothing otherwise. A field that is present but falsy
(empty text, null, false, 0) gives no element. -/
theorem media_elements (browser : Browser) (data : JSVal) (shown : List Block) (b : Block)
    (hb : b ∈ (loadSettles browser (.parsed data) shown).1) :
    ∃ s, slots b.record = .ok s ∧
      b.innerHTML = "\n            <strong>ID:</strong> " ++ s.id ++ "<br/>" ++
      "\n            <strong>Suggested Species:</strong> " ++ s.species ++ "<br/>" ++
      "\n            <strong>Location:</strong> " ++ s.lat ++ ", " ++ s.lon ++ "<br/>" ++
      "\n            <strong>Signal:</strong> Freq: " ++ s.freq ++ " Hz, Amp: " ++ s.amp ++ "<br/>" ++
      "\n            " ++ s.image ++
      "\n            " ++ s.audio ++
      "\n            <br/>" ++
      "\n            <button class=\"approve\">Approve</button>" ++
      "\n            <button class=\"reject\">Reject</button>" ++
      "\n          " ∧
      ((∃ t, toStr (field b.record "image") = .ok t ∧
            s.image = "<img src=\"" ++ t ++ "\" alt=\"plant image\"/>")
          ↔ truthy (field b.record "image") = true) ∧
      (s.image = "" ↔ truthy (field b.record "image") = false) ∧
      ((∃ t, toStr (field b.record "audio") = .ok t ∧
            s.audio = "<audio controls src=\"" ++ t ++ "\"></audio>")
          ↔ truthy (field b.record "audio") = true) ∧
      (s.audio = "" ↔ truthy (field b.record "audio") = false) := by
  obtain ⟨s, hs, hm, -⟩ := settled_block_markup browser data shown b hb
  obtain ⟨h1, h2, -, -, -, -, -, -, hi, ha⟩ := (slots_ok_iff b.record s).mp hs
  rw [imageMarkup_eq h1 h2] at hi
  rw [audioMarkup_eq h1 h2] at ha
  obtain ⟨i1, i2⟩ := media_slot _ imgTag s.image imgTag_ne_empty hi
  obtain ⟨a1, a2⟩ := media_slot _ audioTag s.audio audioTag_ne_empty ha
  exact ⟨s, hs, hm, i1, i2, a1, a2⟩

set_option maxRecDepth 100000 in
theorem media_elements_witness :
    truthy (field oakRecord "image") = true ∧ truthy (field oakRecord "audio") = true ∧
    ∃ s, slots oakRecord = .ok s ∧
      (∃ t, toStr (field oakRecord "image") = .ok t ∧
        s.image = "<img src=\"" ++ t ++ "\" alt=\"plant image\"/>") ∧
      (∃ t, toStr (field oakRecord "audio") = .ok t ∧
        s.audio = "<audio controls src=\"" ++ t ++ "\"></audio>") := by
  obtain ⟨s, hs, -, hi, -, ha, -⟩ := media_elements exampleBrowser
    (.obj [("records", .arr [oakRecord])]) [] ⟨"record", markupOf oakRecord, oakRecord, 0⟩
    (by
      rw [show (loadSettles exampleBrowser (.parsed (.obj [("records", .arr [oakRecord])])) []).1
        = [⟨"record", markupOf oakRecord, oakRecord, 0⟩] from rfl]
      exact List.mem_singleton_self _)
  exact ⟨rfl, rfl, s, hs, hi.mpr rfl, ha.mpr rfl⟩

/-- C7: building the block of a record never fails because an optional field
is missing. For an object record whose id converts to text, each of whose
optional fields `suggested_species`, `image`, `audio`, `location`, `signal` is
either absent or holds values that convert to text, and in whose markup the
browser finds the two buttons, the block is built without an exception; its
markup is the template with the texts pasted in, and there the two coordinates
of an absent `location` and the two measurements of an absent `signal` read
`undefined`. -/
theorem content_total_on_missing_fields (browser : Browser) (fs : List (String × JSVal))
    (i : Nat)
    (hid : Printable (field (.obj fs) "id"))
    (hspecies : hasField (.obj fs) "suggested_species" = false ∨
      Printable (field (.obj fs) "suggested_species"))
    (himage : hasField (.obj fs) "image" = false ∨ Printable (field (.obj fs) "image"))
    (haudio : hasField (.obj fs) "audio" = false ∨ Printable (field (.obj fs) "audio"))
    (hlocation : hasField (.obj fs) "location" = false ∨
      (Printable (optField (field (.obj fs) "location") "lat") ∧
       Printable (optField (field (.obj fs) "location") "lon")))
    (hsignal : hasField (.obj fs) "signal" = false ∨
      (Printable (optField (field (.obj fs) "signal") "freq_peak") ∧
       Printable (optField (field (.obj fs) "signal") "amplitude")))
    (hbuttons : ∀ html, content (.obj fs) = .ok html → browser.findsButtons html) :
    ∃ s : Slots, buildBlock browser (.obj fs) i = .ok ⟨"record",
      "\n            <strong>ID:</strong> " ++ s.id ++ "<br/>" ++
      "\n            <strong>Suggested Species:</strong> " ++ s.species ++ "<br/>" ++
      "\n            <strong>Location:</strong> " ++ s.lat ++ ", " ++ s.lon ++ "<br/>" ++
      "\n            <strong>Signal:</strong> Freq: " ++ s.freq ++ " Hz, Amp: " ++ s.amp ++ "<br/>" ++
      "\n            " ++ s.image ++
      "\n            " ++ s.audio ++
      "\n            <br/>" ++
      "\n            <button class=\"approve\">Approve</button>" ++
      "\n            <button class=\"reject\">Reject</button>" ++
      "\n          ",
      .obj fs, i⟩ ∧
      (hasField (.obj fs) "location" = false → s.lat = "undefined" ∧ s.lon = "undefined") ∧
      (hasField (.obj fs) "signal" = false → s.freq = "undefined" ∧ s.amp = "undefined") := by
  have h1 : (JSVal.obj fs) ≠ .null := by simp
  have h2 : (JSVal.obj fs) ≠ .undefined := by simp
  have absent : ∀ k, hasField (.obj fs) k = false ∨ Printable (field (.obj fs) k) →
      Printable (field (.obj fs) k) := by
    intro k hk
    rcases hk with hk | hk
    · rw [field_of_hasField_false hk]; exact printable_undefined
    · exact hk
  have absentSub : ∀ k j, hasField (.obj fs) k = false → optField (field (.obj fs) k) j
      = .undefined := by
    intro k j hk
    rw [field_of_hasField_false hk]
    rfl
  obtain ⟨tid, htid⟩ := hid
  obtain ⟨tsp, htsp⟩ : Printable (if truthy (field (.obj fs) "suggested_species")
      then field (.obj fs) "suggested_species" else .str "Unknown") := by
    by_cases ht : truthy (field (.obj fs) "suggested_species") = true
    · rw [if_pos ht]; exact absent _ hspecies
    · rw [if_neg ht]; exact ⟨"Unknown", rfl⟩
  obtain ⟨⟨tlat, htlat⟩, ⟨tlon, htlon⟩⟩ :
      Printable (optField (field (.obj fs) "location") "lat") ∧
      Printable (optField (field (.obj fs) "location") "lon") := by
    rcases hlocation with hk | hk
    · rw [absentSub _ "lat" hk, absentSub _ "lon" hk]
      exact ⟨printable_undefined, printable_undefined⟩
    · exact hk
  obtain ⟨⟨tfreq, htfreq⟩, ⟨tamp, htamp⟩⟩ :
      Printable (optField (field (.obj fs) "signal") "freq_peak") ∧
      Printable (optField (field (.obj fs) "signal") "amplitude") := by
    rcases hsignal with hk | hk
    · rw [absentSub _ "freq_peak" hk, absentSub _ "amplitude" hk]
      exact ⟨printable_undefined, printable_undefined⟩
    · exact hk
  obtain ⟨timg, htimg⟩ : ∃ t, imageMarkup (.obj fs) = .ok t := by
    rw [imageMarkup_eq h1 h2]
    by_cases ht : truthy (field (.obj fs) "image") = true
    · obtain ⟨t, ht1⟩ := absent _ himage
      exact ⟨imgTag t, by rw [if_pos ht, ht1]; rfl⟩
    · exact ⟨"", by rw [if_neg ht]⟩
  obtain ⟨taud, htaud⟩ : ∃ t, audioMarkup (.obj fs) = .ok t := by
    rw [audioMarkup_eq h1 h2]
    by_cases ht : truthy (field (.obj fs) "audio") = true
    · obtain ⟨t, ht1⟩ := absent _ haudio
      exact ⟨audioTag t, by rw [if_pos ht, ht1]; rfl⟩
    · exact ⟨"", by rw [if_neg ht]⟩
  have hslots : slots (.obj fs) = .ok ⟨tid, tsp, tlat, tlon, tfreq, tamp, timg, taud⟩ :=
    (slots_ok_iff _ _).mpr ⟨h1, h2, htid, htsp, htlat, htlon, htfreq, htamp, htimg, htaud⟩
  have hcontent : content (.obj fs)
      = .ok (fill ⟨tid, tsp, tlat, tlon, tfreq, tamp, timg, taud⟩) :=
    content_ok_iff.mpr ⟨_, hslots, rfl⟩
  have hbuild := buildBlock_eq browser (.obj fs) i ⟨_, hcontent, hbuttons _ hcontent⟩
  refine ⟨⟨tid, tsp, tlat, tlon, tfreq, tamp, timg, taud⟩, ?_, ?_, ?_⟩
  · rw [hbuild]
    simp only [markupOf, hcontent, fill]
  · intro hk
    rw [absentSub _ "lat" hk] at htlat
    rw [absentSub _ "lon" hk] at htlon
    exact ⟨(Except.ok.inj htlat).symm, (Except.ok.inj htlon).symm⟩
  · intro hk
    rw [absentSub _ "freq_peak" hk] at htfreq
    rw [absentSub _ "amplitude" hk] at htamp
    exact ⟨(Except.ok.inj htfreq).symm, (Except.ok.inj htamp).symm⟩

set_option maxRecDepth 100000 in
theorem content_total_on_missing_fields_witness :
    hasField bareRecord "location" = false ∧ hasField bareRecord "signal" = false ∧
    ∃ s : Slots, buildBlock exampleBrowser bareRecord 0 = .ok ⟨"record",
      "\n            <strong>ID:</strong> " ++ s.id ++ "<br/>" ++
      "\n            <strong>Suggested Species:</strong> " ++ s.species ++ "<br/>" ++
      "\n            <strong>Location:</strong> " ++ s.lat ++ ", " ++ s.lon ++ "<br/>" ++
      "\n            <strong>Signal:</strong> Freq: " ++ s.freq ++ " Hz, Amp: " ++ s.amp ++ "<br/>" ++
      "\n            " ++ s.image ++
      "\n            " ++ s.audio ++
      "\n            <br/>" ++
      "\n            <button class=\"approve\">Approve</button>" ++
      "\n            <button class=\"reject\">Reject</button>" ++
      "\n          ",
      bareRecord, 0⟩ ∧
      s.lat = "undefined" ∧ s.lon = "undefined" ∧ s.freq = "undefined" ∧ s.amp = "undefined" := by
  obtain ⟨s, hb, hl, hs⟩ := content_total_on_missing_fields exampleBrowser [("id", .str "r7")] 0
    ⟨"r7", rfl⟩ (Or.inl rfl) (Or.inl rfl) (Or.inl rfl) (Or.inl rfl) (Or.inl rfl)
    (by
      intro html hh
      have hc : content (.obj [("id", .str "r7")]) = .ok (markupOf bareRecord) := rfl
      rw [hc] at hh
      cases hh
      exact ⟨rfl, rfl⟩)
  exact ⟨rfl, rfl, s, hb, (hl rfl).1, (hl rfl).2, (hs rfl).1, (hs rfl).2⟩

end Dashboard
